import Mathlib

/-!
Verification of the transactional data layer of the bizpro-app repository
(inventory, sales, user accounts, reports), shallowly embedded in Lean.

Each definition models one piece of the TypeScript source:
* `initDB` — `src/database/db.ts` (revision with the `users` table and the
  seeded administrator account);
* `register`, `login` — `src/context/AuthContext.tsx`;
* `handleSubmit` — the sale-recording handler of `src/screens/SalesScreen.tsx`;
* `deleteItem` — `src/screens/InventoryScreen.tsx`;
* `fetchSummary`, `fetchReportRows` — the `fetchReports` queries of
  `ReportsScreen`;
* `lowStockHome` — the low-stock query of `src/screens/HomeScreen.tsx`.

SQLite rows become Lean structures; `REAL` columns become `ℚ`; the result of
`parseInt` becomes `Option Int` (`none` = `NaN`); `SUM(...)` over an empty
result set becomes `none` (SQL `NULL`).  The external `bcryptjs` library is
modelled by an ideal one-way hash: a stored hash remembers the plaintext it
was derived from, and `bcryptCompare` succeeds exactly on that plaintext
(the random salt is abstracted away).  Possible failures of the underlying
storage engine during the two writes of the sale-recording handler are
modelled by explicit Boolean fault flags.
-/

namespace BizPro

/-! ### Strings: JS `trim`, the username character class, SQLite text order -/

/-- Whitespace as stripped by JavaScript `String.prototype.trim` (restricted
to the four ASCII whitespace characters, which suffices for this data layer). -/
def isJsWs (c : Char) : Bool :=
  c == ' ' || c == '\t' || c == '\n' || c == '\r'

/-- `trim` on the underlying character list: drop leading whitespace, then
drop trailing whitespace. -/
def jsTrimList (l : List Char) : List Char :=
  ((l.dropWhile isJsWs).reverse.dropWhile isJsWs).reverse

/-- Model of JavaScript `s.trim()`. -/
def jsTrim (s : String) : String := ⟨jsTrimList s.data⟩

/-- One character of the username regex `/^[a-zA-Z0-9_]+$/`. -/
def isWordChar (c : Char) : Bool :=
  c.isAlpha || c.isDigit || c == '_'

/-- The test `/^[a-zA-Z0-9_]+$/.test s`: nonempty, all word characters. -/
def usernameFormatOk (s : String) : Bool :=
  !s.data.isEmpty && s.data.all isWordChar

/-- Codepoint-wise lexicographic comparison of character lists, modelling
SQLite's BINARY collation used by `date >= ...` and `BETWEEN` on `TEXT`. -/
def charsLe : List Char → List Char → Bool
  | [], _ => true
  | _ :: _, [] => false
  | a :: as, b :: bs =>
    if a.val < b.val then true
    else if b.val < a.val then false
    else charsLe as bs

/-- SQLite `TEXT` comparison `s <= t`. -/
def sqlTextLe (s t : String) : Bool := charsLe s.data t.data

/-! ### Data model: the three tables -/

/-- One row of `inventory(id, name, quantity, price)`. -/
structure Item where
  id : Nat
  name : String
  quantity : Int
  price : ℚ
deriving DecidableEq, Repr

/-- One row of `sales(id, itemId, quantity, amount, date)`. -/
structure SaleRow where
  id : Nat
  itemId : Nat
  quantity : Int
  amount : ℚ
  date : String
deriving DecidableEq, Repr

/-- A stored password hash.  `bcryptjs` is external to the repository; it is
modelled as an ideal salted hash: the hash value determines (only through
`bcryptCompare`) which plaintext produced it. -/
inductive StoredPwd where
  | bcryptHash (plain : String)
deriving DecidableEq, Repr

/-- Model of `bcrypt.compare(candidate, storedHash)`. -/
def bcryptCompare (candidate : String) : StoredPwd → Bool
  | .bcryptHash plain => candidate == plain

/-- One row of `users(id, username, password, role, createdAt)`. -/
structure UserRow where
  id : Nat
  username : String
  password : StoredPwd
  role : String
  createdAt : String
deriving DecidableEq, Repr

/-- The database after `initDB`: the three tables. -/
structure DB where
  inventory : List Item
  sales : List SaleRow
  users : List UserRow
deriving DecidableEq, Repr

/-- Next `INTEGER PRIMARY KEY AUTOINCREMENT` value: one past the maximum
existing id. -/
def nextId (ids : List Nat) : Nat := ids.foldr max 0 + 1

/-! ### Schema initialization (`initDB`, db.ts revision with `users`) -/

/-- The database as seen by `initDB`: each table either absent (`none`) or
present with its rows.  `CREATE TABLE IF NOT EXISTS` turns an absent table
into a present empty one and leaves a present table unchanged. -/
structure SchemaDB where
  inventoryTab : Option (List Item)
  salesTab : Option (List SaleRow)
  usersTab : Option (List UserRow)
deriving DecidableEq, Repr

/-- The administrator row seeded by `initDB` on a database with zero user
accounts: username `admin`, password hash of `admin123`, role `admin`. -/
def seededAdmin (now : String) : UserRow :=
  ⟨1, "admin", .bcryptHash "admin123", "admin", now⟩

/-- `initDB` from `src/database/db.ts`: create the three tables if absent,
then `SELECT COUNT(*) FROM users` and, if the count is zero, insert the
default administrator account. -/
def initDB (db : SchemaDB) (now : String) : SchemaDB :=
  let inv := db.inventoryTab.getD []
  let sal := db.salesTab.getD []
  let usr := db.usersTab.getD []
  let usr2 := if usr.length = 0 then usr ++ [seededAdmin now] else usr
  ⟨some inv, some sal, some usr2⟩

/-! ### Credential service (`AuthContext.tsx`) -/

/-- Observable outcome of `login`: the alert message and returned Boolean on
failure, or the user fields placed into the session on success. -/
inductive LoginOutcome where
  | failed (alertMsg : String)
  | loggedIn (id : Nat) (username : String) (role : String)
deriving DecidableEq, Repr

/-- `login` from `AuthContext.tsx`: look up the first row with an exact
(untrimmed) username match; absent user and wrong password both produce the
same `"Invalid username or password"` outcome. -/
def login (db : DB) (username password : String) : LoginOutcome :=
  match db.users.find? (fun u => u.username == username) with
  | none => .failed "Invalid username or password"
  | some u =>
    if bcryptCompare password u.password then .loggedIn u.id u.username u.role
    else .failed "Invalid username or password"

/-- Result of `register`: the database afterwards, the returned Boolean, and
the alert message shown. -/
structure RegisterResult where
  db : DB
  ok : Bool
  message : String
deriving DecidableEq, Repr

/-- `register` from `AuthContext.tsx`: trim both inputs, run the six
validation checks in source order, then hash the password and insert the
new row.  `now` is `new Date().toISOString()`. -/
def register (db : DB) (username password role now : String) : RegisterResult :=
  let tu := jsTrim username
  let tp := jsTrim password
  if tu == "" || tp == "" then
    ⟨db, false, "Username and password cannot be empty"⟩
  else if tu.length < 3 then
    ⟨db, false, "Username must be at least 3 characters long"⟩
  else if tp.length < 6 then
    ⟨db, false, "Password must be at least 6 characters long"⟩
  else if !usernameFormatOk tu then
    ⟨db, false, "Username can only contain letters, numbers, and underscores"⟩
  else if !(role == "user" || role == "admin") then
    ⟨db, false, "Invalid role selected"⟩
  else if (db.users.find? (fun u => u.username == tu)).isSome then
    ⟨db, false, "Username already exists"⟩
  else
    let row : UserRow :=
      ⟨nextId (db.users.map UserRow.id), tu, .bcryptHash tp, role, now⟩
    ⟨{ db with users := db.users ++ [row] }, true, "User registered successfully"⟩

/-! ### Sale recording (`SalesScreen.tsx` `handleSubmit`) -/

/-- The item list offered by the sales screen:
`SELECT * FROM inventory WHERE quantity > 0`. -/
def itemsForSale (db : DB) : List Item :=
  db.inventory.filter (fun it => decide (0 < it.quantity))

/-- Outcome of the sale-recording handler: a validation message set via
`setError`, the catch-all storage alert, or the success alert amount. -/
inductive SubmitOutcome where
  | validationError (msg : String)
  | storageError (msg : String)
  | saved (amount : ℚ)
deriving DecidableEq, Repr

/-- `handleSubmit` from `SalesScreen.tsx`.  `selectedItemId` is the menu
selection (`null` = `none`); `qtyNum` is `parseInt(quantity)` (`none` =
`NaN`).  The INSERT into `sales` and the UPDATE of `inventory` are two
separate `runAsync` calls with no enclosing transaction; `insertFails` and
`updateFails` inject a storage failure at the corresponding write, which the
single `catch` turns into the `"Failed to save sale"` alert. -/
def handleSubmit (db : DB) (selectedItemId : Option Nat) (qtyNum : Option Int)
    (now : String) (insertFails updateFails : Bool) : DB × SubmitOutcome :=
  let item? := selectedItemId.bind fun iid =>
    (itemsForSale db).find? (fun it => it.id == iid)
  match item?, qtyNum with
  | some item, some qty =>
    if qty ≤ 0 then
      (db, .validationError "Select an item and enter a valid quantity")
    else if item.quantity < qty then
      (db, .validationError "Quantity exceeds available stock")
    else if insertFails then
      (db, .storageError "Failed to save sale")
    else
      let amount := (qty : ℚ) * item.price
      let db1 : DB :=
        { db with sales := db.sales ++
            [⟨nextId (db.sales.map SaleRow.id), item.id, qty, amount, now⟩] }
      if updateFails then
        (db1, .storageError "Failed to save sale")
      else
        ({ db1 with inventory := db1.inventory.map fun it =>
            if it.id == item.id then { it with quantity := it.quantity - qty }
            else it },
         .saved amount)
  | _, _ => (db, .validationError "Select an item and enter a valid quantity")

/-! ### Generic insertion sort (models SQL `ORDER BY`) -/

/-- Insert `x` into `l` before the first element `y` with `le x y`. -/
def insertBy (le : α → α → Bool) (x : α) : List α → List α
  | [] => [x]
  | y :: ys => if le x y then x :: y :: ys else y :: insertBy le x ys

/-- Insertion sort by the Boolean comparison `le`. -/
def sortBy (le : α → α → Bool) : List α → List α
  | [] => []
  | x :: xs => insertBy le x (sortBy le xs)

/-! ### Query service (`ReportsScreen` `fetchReports`, `HomeScreen`) -/

/-- The period selector of the reports screen. -/
inductive Period where
  | daily
  | weekly
  | monthly
  | custom (start stop : String)
deriving DecidableEq, Repr

/-- The three `date('now', ...)` boundary strings the SQL filters compare
against; they stand for the clock at query time. -/
structure Clock where
  startOfDay : String
  sixDaysAgo : String
  startOfMonth : String
deriving DecidableEq, Repr

/-- The `WHERE` date filter built by `fetchReports` for each period:
`date >= date('now','start of day')`, `date >= date('now','-6 days')`,
`date >= date('now','start of month')`, or `date BETWEEN ? AND ?`. -/
def inPeriod (ck : Clock) (p : Period) (d : String) : Bool :=
  match p with
  | .daily => sqlTextLe ck.startOfDay d
  | .weekly => sqlTextLe ck.sixDaysAgo d
  | .monthly => sqlTextLe ck.startOfMonth d
  | .custom start stop => sqlTextLe start d && sqlTextLe d stop

/-- Row returned by the summary query
`SELECT COUNT(*) as totalSales, SUM(amount) as totalRevenue FROM sales
WHERE <dateFilter>`.  `SUM` over zero rows is SQL `NULL`, hence `Option`. -/
def sqlSummaryRow (sales : List SaleRow) (ck : Clock) (p : Period) :
    Nat × Option ℚ :=
  let rows := sales.filter (fun s => inPeriod ck p s.date)
  (rows.length,
   if rows.isEmpty then none else some ((rows.map SaleRow.amount).sum))

/-- The summary state set by `fetchReports`. -/
structure Summary where
  totalSales : Nat
  totalRevenue : ℚ
  averageSale : ℚ
deriving DecidableEq, Repr

/-- The JS post-processing of the summary row in `fetchReports`:
`totalRevenue: summaryResult?.totalRevenue || 0` and
`averageSale: summaryResult?.totalSales ? totalRevenue / totalSales : 0`. -/
def fetchSummary (sales : List SaleRow) (ck : Clock) (p : Period) : Summary :=
  let r := sqlSummaryRow sales ck p
  { totalSales := r.1
    totalRevenue := (r.2).getD 0
    averageSale := if r.1 = 0 then 0 else (r.2).getD 0 / (r.1 : ℚ) }

/-- One row of the detailed report query. -/
structure ReportRow where
  itemId : Nat
  itemName : String
  totalQuantity : Int
  totalAmount : ℚ
deriving DecidableEq, Repr

/-- The `FROM sales s JOIN inventory i ON s.itemId = i.id` rows restricted to
the date filter. -/
def joinedRows (sales : List SaleRow) (inv : List Item) (ck : Clock)
    (p : Period) : List (SaleRow × Item) :=
  (sales.filter (fun s => inPeriod ck p s.date)).flatMap fun s =>
    (inv.filter (fun i => i.id == s.itemId)).map fun i => (s, i)

/-- The detailed report query of `fetchReports`: join sales with inventory,
group by `(s.itemId, i.name)`, sum quantity and amount per group, and order
by `totalAmount DESC`. -/
def fetchReportRows (sales : List SaleRow) (inv : List Item) (ck : Clock)
    (p : Period) : List ReportRow :=
  let j := joinedRows sales inv ck p
  let keys := (j.map (fun si => (si.1.itemId, si.2.name))).dedup
  let rows := keys.map fun k =>
    let grp := j.filter (fun si => (si.1.itemId, si.2.name) == k)
    ReportRow.mk k.1 k.2 ((grp.map (fun si => si.1.quantity)).sum)
      ((grp.map (fun si => si.1.amount)).sum)
  sortBy (fun a b => decide (b.totalAmount ≤ a.totalAmount)) rows

/-- The low-stock query of `HomeScreen.tsx` `fetchData`:
`SELECT * FROM inventory WHERE quantity <= 5 ORDER BY quantity ASC`.
The threshold `5` is written into the SQL string. -/
def lowStockHome (inv : List Item) : List Item :=
  sortBy (fun a b => decide (a.quantity ≤ b.quantity))
    (inv.filter (fun it => decide (it.quantity ≤ 5)))

/-- Modelled from the spec: the `lowStock(threshold)` query as §4.4 of the
spec describes it — the threshold is caller-supplied (a caller passing
nothing uses the documented default of 5), returning the items with quantity
at most the threshold in ascending quantity order.  There is no such
parametrised query in the source; this definition exists to be compared
with `lowStockHome`. -/
def lowStockSpec (inv : List Item) (threshold : Int) : List Item :=
  sortBy (fun a b => decide (a.quantity ≤ b.quantity))
    (inv.filter (fun it => decide (it.quantity ≤ threshold)))

/-! ### Inventory deletion (`InventoryScreen.tsx`) -/

/-- `deleteItem`: `DELETE FROM inventory WHERE id = ?`; the `sales` table is
not touched. -/
def deleteItem (db : DB) (id : Nat) : DB :=
  { db with inventory := db.inventory.filter (fun it => !(it.id == id)) }

/-! ### Helper lemmas: insertion sort -/

theorem insertBy_perm (le : α → α → Bool) (x : α) :
    ∀ l : List α, (insertBy le x l).Perm (x :: l)
  | [] => List.Perm.refl _
  | y :: ys => by
    unfold insertBy
    by_cases h : le x y = true
    · simp [h]
    · simp only [h, if_false]
      exact (List.Perm.cons y (insertBy_perm le x ys)).trans
        (List.Perm.swap x y ys)

theorem sortBy_perm (le : α → α → Bool) : ∀ l : List α, (sortBy le l).Perm l
  | [] => List.Perm.refl _
  | x :: xs =>
    (insertBy_perm le x (sortBy le xs)).trans
      (List.Perm.cons x (sortBy_perm le xs))

theorem insertBy_pairwise {le : α → α → Bool}
    (htot : ∀ a b, le a b = true ∨ le b a = true)
    (htrans : ∀ a b c, le a b = true → le b c = true → le a c = true)
    (x : α) : ∀ {l : List α}, List.Pairwise (fun a b => le a b = true) l →
      List.Pairwise (fun a b => le a b = true) (insertBy le x l)
  | [], _ => by simp [insertBy]
  | y :: ys, hl => by
    rcases List.pairwise_cons.mp hl with ⟨hy, hys⟩
    unfold insertBy
    by_cases h : le x y = true
    · simp only [h, if_true]
      refine List.pairwise_cons.mpr ⟨fun z hz => ?_, hl⟩
      rcases List.mem_cons.mp hz with rfl | hz
      · exact h
      · exact htrans x y z h (hy z hz)
    · simp only [h, if_false]
      refine List.pairwise_cons.mpr
        ⟨fun z hz => ?_, insertBy_pairwise htot htrans x hys⟩
      rcases List.mem_cons.mp ((insertBy_perm le x ys).mem_iff.mp hz) with rfl | hz
      · rcases htot z y with h' | h'
        · exact absurd h' h
        · exact h'
      · exact hy z hz

theorem sortBy_pairwise {le : α → α → Bool}
    (htot : ∀ a b, le a b = true ∨ le b a = true)
    (htrans : ∀ a b c, le a b = true → le b c = true → le a c = true) :
    ∀ l : List α, List.Pairwise (fun a b => le a b = true) (sortBy le l)
  | [] => List.Pairwise.nil
  | x :: xs => insertBy_pairwise htot htrans x (sortBy_pairwise htot htrans xs)

/-! ### Helper lemmas: lookup by a unique key -/

theorem find?_key_eq_some {κ : Type _} [DecidableEq κ] (key : α → κ) :
    ∀ {l : List α}, (l.map key).Nodup → ∀ {x : α}, x ∈ l →
      l.find? (fun y => key y == key x) = some x
  | [], _, _, hx => absurd hx (List.not_mem_nil _)
  | y :: t, h, x, hx => by
    rw [List.map_cons, List.nodup_cons] at h
    rcases List.mem_cons.mp hx with rfl | hxt
    · rw [List.find?_cons_of_pos _ (by simp)]
    · have hne : key y ≠ key x := fun he =>
        h.1 (he ▸ List.mem_map_of_mem key hxt)
      rw [List.find?_cons_of_neg _ (by simp [hne])]
      exact find?_key_eq_some key h.2 hxt

theorem find?_append_left_none {p : α → Bool} {l₁ l₂ : List α}
    (h : l₁.find? p = none) : (l₁ ++ l₂).find? p = l₂.find? p := by
  rw [List.find?_append, h, Option.none_or]

theorem filter_key_of_nodup {κ : Type _} [DecidableEq κ] (key : α → κ) (k : κ) :
    ∀ {l : List α}, (l.map key).Nodup →
      l.filter (fun a => key a == k) = (l.find? (fun a => key a == k)).toList
  | [], _ => rfl
  | y :: t, h => by
    rw [List.map_cons, List.nodup_cons] at h
    by_cases hy : key y = k
    · have ht : t.filter (fun a => key a == k) = [] := by
        refine List.filter_eq_nil_iff.mpr fun a ha => ?_
        simp only [beq_iff_eq]
        exact fun he => h.1 (hy ▸ he ▸ List.mem_map_of_mem key ha)
      rw [List.filter_cons, if_pos (by simp [hy]), ht,
        List.find?_cons_of_pos _ (by simp [hy])]
      rfl
    · rw [List.filter_cons, if_neg (by simp [hy]),
        List.find?_cons_of_neg _ (by simp [hy])]
      exact filter_key_of_nodup key k h.2

/-! ### Helper lemmas: sums over filters and groups -/

theorem sum_map_filter_split {M : Type _} [AddCommMonoid M]
    (p : α → Bool) (f : α → M) :
    ∀ l : List α,
      ((l.filter p).map f).sum + ((l.filter (fun a => !p a)).map f).sum
        = (l.map f).sum
  | [] => by simp
  | a :: t => by
    have IH := sum_map_filter_split p f t
    by_cases h : p a = true
    · rw [List.filter_cons, List.filter_cons, if_pos h,
        if_neg (show ¬(!p a) = true by simp [h]),
        List.map_cons, List.sum_cons, add_assoc, IH, List.map_cons,
        List.sum_cons]
    · rw [List.filter_cons, List.filter_cons, if_neg h,
        if_pos (show (!p a) = true by simp [h]),
        List.map_cons, List.sum_cons, add_left_comm, IH, List.map_cons,
        List.sum_cons]

theorem sum_map_single_key {κ M : Type _} [DecidableEq κ] [AddCommMonoid M]
    (c : M) (b : κ) :
    ∀ {ks : List κ}, ks.Nodup → b ∈ ks →
      (ks.map (fun k => if b = k then c else 0)).sum = c
  | [], _, hb => absurd hb (List.not_mem_nil _)
  | k :: t, h, hb => by
    rw [List.nodup_cons] at h
    rcases List.mem_cons.mp hb with rfl | hbt
    · have : (t.map (fun k' => if b = k' then c else 0)) = t.map (fun _ => 0) :=
        List.map_congr_left fun a ha => if_neg fun he => h.1 (by rw [he]; exact ha)
      simp [this, List.sum_cons]
    · have hne : b ≠ k := fun he => h.1 (he ▸ hbt)
      simp only [List.map_cons, List.sum_cons, if_neg hne, zero_add]
      exact sum_map_single_key c b h.2 hbt

theorem sum_over_groups {κ M : Type _} [DecidableEq κ] [AddCommMonoid M]
    (beq : κ → κ → Bool) (hbeq : ∀ a b, beq a b = true ↔ a = b)
    (key : α → κ) (f : α → M) :
    ∀ l : List α,
      (((l.map key).dedup).map
          (fun k => ((l.filter (fun a => beq (key a) k)).map f).sum)).sum
        = (l.map f).sum
  | [] => by simp
  | a :: t => by
    have hsplit : ∀ k, ((a :: t).filter (fun x => beq (key x) k)).map f
        = (if key a = k then [f a] else [])
          ++ (t.filter (fun x => beq (key x) k)).map f := by
      intro k
      by_cases h : key a = k
      · rw [List.filter_cons, if_pos ((hbeq _ _).mpr h), if_pos h, List.map_cons]
        rfl
      · rw [List.filter_cons,
          if_neg (fun hb => h ((hbeq _ _).mp hb)), if_neg h, List.nil_append]
    by_cases hmem : key a ∈ t.map key
    · rw [List.map_cons, List.dedup_cons_of_mem hmem]
      have : ((t.map key).dedup).map
            (fun k => (((a :: t).filter (fun x => beq (key x) k)).map f).sum)
          = ((t.map key).dedup).map
            (fun k => (if key a = k then f a else 0)
              + ((t.filter (fun x => beq (key x) k)).map f).sum) := by
        refine List.map_congr_left fun k _ => ?_
        rw [hsplit k]
        by_cases h : key a = k <;> simp [h]
      rw [this, List.sum_map_add, sum_map_single_key (f a) (key a)
          (List.nodup_dedup _) (List.mem_dedup.mpr hmem),
        sum_over_groups beq hbeq key f t, List.map_cons, List.sum_cons]
    · rw [List.map_cons, List.dedup_cons_of_not_mem hmem, List.map_cons,
        List.sum_cons, hsplit (key a), if_pos rfl]
      have ht : t.filter (fun x => beq (key x) (key a)) = [] :=
        List.filter_eq_nil_iff.mpr fun x hx hb =>
          hmem (((hbeq _ _).mp hb) ▸ List.mem_map_of_mem key hx)
      have : ((t.map key).dedup).map
            (fun k => (((a :: t).filter (fun x => beq (key x) k)).map f).sum)
          = ((t.map key).dedup).map
            (fun k => ((t.filter (fun x => beq (key x) k)).map f).sum) := by
        refine List.map_congr_left fun k hk => ?_
        have hne : key a ≠ k := fun he =>
          hmem (List.mem_dedup.mp (he ▸ hk))
        rw [hsplit k, if_neg hne, List.nil_append]
      rw [ht, this, sum_over_groups beq hbeq key f t]
      simp [List.map_cons, List.sum_cons]

/-! ### Helper lemmas: `trim` -/

theorem dropWhile_idem (p : α → Bool) :
    ∀ l : List α, (l.dropWhile p).dropWhile p = l.dropWhile p
  | [] => rfl
  | a :: t => by
    by_cases h : p a = true
    · rw [List.dropWhile_cons, if_pos h]
      exact dropWhile_idem p t
    · rw [List.dropWhile_cons, if_neg h, List.dropWhile_cons, if_neg h]

theorem head_dropWhile_not (p : α → Bool) :
    ∀ {l : List α} {c : α}, (l.dropWhile p).head? = some c → p c = false
  | [], _, h => by cases h
  | a :: t, c, h => by
    by_cases ha : p a = true
    · rw [List.dropWhile_cons, if_pos ha] at h
      exact head_dropWhile_not p h
    · rw [List.dropWhile_cons, if_neg ha] at h
      cases h
      exact Bool.not_eq_true _ |>.mp ha

theorem dropWhile_eq_self_of_head (p : α → Bool) {l : List α}
    (h : ∀ c, l.head? = some c → p c = false) : l.dropWhile p = l := by
  cases l with
  | nil => rfl
  | cons a t =>
    rw [List.dropWhile_cons, if_neg (by simp [h a rfl])]

theorem jsTrimList_idem (l : List Char) :
    jsTrimList (jsTrimList l) = jsTrimList l := by
  set l2 := l.dropWhile isJsWs with hl2
  set d := l2.reverse.dropWhile isJsWs with hd
  have htriml : jsTrimList l = d.reverse := rfl
  have hstep : d.reverse.dropWhile isJsWs = d.reverse := by
    refine dropWhile_eq_self_of_head isJsWs fun c hc => ?_
    rcases List.dropWhile_suffix (l := l2.reverse) isJsWs with ⟨t, ht⟩
    have hl2eq : l2 = d.reverse ++ t.reverse := by
      have h2 := congrArg List.reverse ht
      rw [List.reverse_append, List.reverse_reverse] at h2
      exact h2.symm.trans rfl
    have hhead : l2.head? = some c := by
      rw [hl2eq, List.head?_append, hc]
      rfl
    exact head_dropWhile_not isJsWs (hl2 ▸ hhead)
  show ((d.reverse.dropWhile isJsWs).reverse.dropWhile isJsWs).reverse = d.reverse
  rw [hstep, List.reverse_reverse, hd, dropWhile_idem]

theorem jsTrim_idem (s : String) : jsTrim (jsTrim s) = jsTrim s :=
  String.ext (jsTrimList_idem s.data)

/-! ### Helper lemmas: whitespace versus the username character class -/

theorem ws_not_wordChar {c : Char} (h : isJsWs c = true) :
    isWordChar c = false := by
  have : c = ' ' ∨ c = '\t' ∨ c = '\n' ∨ c = '\r' := by
    simpa [isJsWs, or_assoc] using h
  rcases this with rfl | rfl | rfl | rfl <;> decide

theorem dropWhile_eq_self_of_all {p : α → Bool} :
    ∀ {l : List α}, (∀ c ∈ l, p c = false) → l.dropWhile p = l
  | [], _ => rfl
  | a :: t, h => by
    rw [List.dropWhile_cons, if_neg (by simp [h a (List.mem_cons_self a t)])]

theorem jsTrim_eq_self_of_all_wordChar {s : String}
    (h : s.data.all isWordChar = true) : jsTrim s = s := by
  have hnot : ∀ c ∈ s.data, isJsWs c = false := by
    intro c hc
    have hw : isWordChar c = true := by
      have := List.all_eq_true.mp h c hc
      simpa using this
    by_contra hws
    rw [ws_not_wordChar (Bool.of_not_eq_false hws)] at hw
    cases hw
  refine String.ext ?_
  show jsTrimList s.data = s.data
  unfold jsTrimList
  rw [dropWhile_eq_self_of_all hnot,
    dropWhile_eq_self_of_all (fun c hc => hnot c (List.mem_reverse.mp hc)),
    List.reverse_reverse]

theorem all_wordChar_of_trim_ne {s : String} (h : jsTrim s ≠ s) :
    s.data.all isWordChar = false := by
  by_contra hall
  exact h (jsTrim_eq_self_of_all_wordChar (Bool.of_not_eq_false hall))

/-! ### Claim C1 -/

/-- C1: the spec requires the sale INSERT and the inventory decrement to be
all-or-nothing, with no Sale row persisting when the decrement fails.  The
code runs them as two separate `runAsync` calls with no transaction: on a
database holding one item (id 1, "Soap", quantity 10, price 50), recording a
sale of 3 while the inventory UPDATE fails leaves the new Sale row (amount
150) in the sales table and the inventory quantity still 10 — the decrement
failed but the sale persisted, contradicting the claim. -/
theorem C1_decrement_failure_leaves_sale_row :
    handleSubmit ⟨[⟨1, "Soap", 10, 50⟩], [], []⟩ (some 1) (some 3)
        "2026-10-11T12:00:00.000Z" false true
      = (⟨[⟨1, "Soap", 10, 50⟩],
          [⟨1, 1, 3, 150, "2026-10-11T12:00:00.000Z"⟩], []⟩,
         .storageError "Failed to save sale") := by
  norm_num [handleSubmit, itemsForSale, nextId]

/-! ### Claim C3 -/

/-- C3: a sale-recording attempt whose parsed quantity is non-positive, or
exceeds the selected item's on-hand quantity, fails with a validation
message before any write: the returned database is exactly the input
database (sales table and inventory both untouched), whatever the storage
fault flags are. -/
theorem C3_invalid_quantity_no_write (db : DB) (sel : Option Nat) (q : Int)
    (now : String) (insertFails updateFails : Bool)
    (h : q ≤ 0 ∨ ∃ item,
      (sel.bind fun iid => (itemsForSale db).find? (fun it => it.id == iid))
          = some item ∧ item.quantity < q) :
    (handleSubmit db sel (some q) now insertFails updateFails).1 = db ∧
    ∃ msg, (handleSubmit db sel (some q) now insertFails updateFails).2
        = .validationError msg := by
  unfold handleSubmit
  rcases h with hq | ⟨item, hit, hlt⟩
  · cases hfind : (sel.bind fun iid =>
        (itemsForSale db).find? (fun it => it.id == iid)) with
    | none => simp [hfind]
    | some item => simp [hfind, hq]
  · by_cases hq : q ≤ 0 <;> simp [hit, hq, hlt]

/-- Witness for C3: on a database holding item 1 ("Soap", quantity 10),
submitting quantity 0 and quantity 11 both leave the database unchanged and
produce a validation error. -/
theorem C3_invalid_quantity_no_write_witness :
    ((handleSubmit ⟨[⟨1, "Soap", 10, 50⟩], [], []⟩ (some 1) (some 0)
        "2026-10-11" false false).1 = ⟨[⟨1, "Soap", 10, 50⟩], [], []⟩ ∧
      ∃ msg, (handleSubmit ⟨[⟨1, "Soap", 10, 50⟩], [], []⟩ (some 1) (some 0)
        "2026-10-11" false false).2 = .validationError msg) ∧
    ((handleSubmit ⟨[⟨1, "Soap", 10, 50⟩], [], []⟩ (some 1) (some 11)
        "2026-10-11" false false).1 = ⟨[⟨1, "Soap", 10, 50⟩], [], []⟩ ∧
      ∃ msg, (handleSubmit ⟨[⟨1, "Soap", 10, 50⟩], [], []⟩ (some 1) (some 11)
        "2026-10-11" false false).2 = .validationError msg) :=
  ⟨C3_invalid_quantity_no_write _ _ _ _ _ _ (Or.inl (by decide)),
   C3_invalid_quantity_no_write _ _ _ _ _ _
     (Or.inr ⟨⟨1, "Soap", 10, 50⟩, by decide, by decide⟩)⟩

/-! ### Claim C5 -/

/-- C5: the outcome of `login` observable to the caller is identical when
the username does not exist and when the username exists but the password
fails hash verification — the same `"Invalid username or password"` failure
in both cases. -/
theorem C5_login_indistinguishable_failure (db : DB) (u₁ p₁ u₂ p₂ : String)
    (usr : UserRow)
    (h₁ : db.users.find? (fun w => w.username == u₁) = none)
    (h₂ : db.users.find? (fun w => w.username == u₂) = some usr)
    (h₃ : bcryptCompare p₂ usr.password = false) :
    login db u₁ p₁ = login db u₂ p₂ ∧
    login db u₁ p₁ = .failed "Invalid username or password" := by
  unfold login
  rw [h₁, h₂]
  simp [h₃]

/-- Witness for C5: one stored user `bob`; logging in as the nonexistent
`alice` and as `bob` with a wrong password produce the same failure. -/
theorem C5_login_indistinguishable_failure_witness :
    (login ⟨[], [], [⟨1, "bob", .bcryptHash "secret1", "user", "t0"⟩]⟩
        "alice" "pw1"
      = login ⟨[], [], [⟨1, "bob", .bcryptHash "secret1", "user", "t0"⟩]⟩
        "bob" "wrongpw") ∧
    login ⟨[], [], [⟨1, "bob", .bcryptHash "secret1", "user", "t0"⟩]⟩
        "alice" "pw1"
      = .failed "Invalid username or password" :=
  C5_login_indistinguishable_failure _ "alice" "pw1" "bob" "wrongpw"
    ⟨1, "bob", .bcryptHash "secret1", "user", "t0"⟩
    (by decide) (by decide) (by decide)

/-! ### Claim C6 -/

/-- C6: `initDB` is idempotent — a second run (at any later time `t'`)
returns the same schema and rows as the first — and it seeds exactly the one
default administrator account precisely when zero user accounts exist,
leaving an already-populated users table untouched. -/
theorem C6_initDB_idempotent_seed_once (s : SchemaDB) (t t' : String) :
    initDB (initDB s t) t' = initDB s t ∧
    (s.usersTab.getD [] = [] →
      (initDB s t).usersTab = some [seededAdmin t]) ∧
    (s.usersTab.getD [] ≠ [] →
      (initDB s t).usersTab = some (s.usersTab.getD [])) := by
  refine ⟨?_, fun h => by simp [initDB, h], fun h => ?_⟩
  · by_cases h : s.usersTab.getD [] = []
    · simp [initDB, h]
    · have h' : (s.usersTab.getD []).length ≠ 0 := by
        simpa [List.length_eq_zero] using h
      simp [initDB, h']
  · have h' : (s.usersTab.getD []).length ≠ 0 := by
      simpa [List.length_eq_zero] using h
    simp [initDB, h']

/-- Witness for C6: on a fresh database (no tables) initialization seeds the
single admin account and a repeated initialization changes nothing; on a
database whose users table already has a row, no account is added. -/
theorem C6_initDB_idempotent_seed_once_witness :
    initDB (initDB ⟨none, none, none⟩ "t1") "t2"
        = initDB ⟨none, none, none⟩ "t1" ∧
    (initDB ⟨none, none, none⟩ "t1").usersTab = some [seededAdmin "t1"] ∧
    (initDB ⟨none, none,
        some [⟨7, "zoe", .bcryptHash "pw123456", "user", "t0"⟩]⟩ "t1").usersTab
      = some [⟨7, "zoe", .bcryptHash "pw123456", "user", "t0"⟩] :=
  ⟨(C6_initDB_idempotent_seed_once ⟨none, none, none⟩ "t1" "t2").1,
   (C6_initDB_idempotent_seed_once ⟨none, none, none⟩ "t1" "t2").2.1 (by decide),
   (C6_initDB_idempotent_seed_once
      ⟨none, none, some [⟨7, "zoe", .bcryptHash "pw123456", "user", "t0"⟩]⟩
      "t1" "t2").2.2 (by decide)⟩

/-! ### Claim C7 -/

/-- C7: for every period filter, the summary reports the count and the sum
of the sale amounts in range, and the average sale equals sum divided by
count when the count is positive and 0 when the count is 0 (the division is
never performed on a zero count). -/
theorem C7_summary_count_sum_average (sales : List SaleRow) (ck : Clock)
    (p : Period) :
    (fetchSummary sales ck p).totalSales
        = (sales.filter (fun s => inPeriod ck p s.date)).length ∧
    (fetchSummary sales ck p).totalRevenue
        = ((sales.filter (fun s => inPeriod ck p s.date)).map SaleRow.amount).sum ∧
    ((sales.filter (fun s => inPeriod ck p s.date)).length ≠ 0 →
      (fetchSummary sales ck p).averageSale
        = ((sales.filter (fun s => inPeriod ck p s.date)).map SaleRow.amount).sum
            / ((sales.filter (fun s => inPeriod ck p s.date)).length : ℚ)) ∧
    ((sales.filter (fun s => inPeriod ck p s.date)).length = 0 →
      (fetchSummary sales ck p).averageSale = 0) := by
  by_cases h : sales.filter (fun s => inPeriod ck p s.date) = []
  · simp [fetchSummary, sqlSummaryRow, h]
  · have hne : ((sales.filter (fun s => inPeriod ck p s.date)).isEmpty) = false := by
      simpa [List.isEmpty_iff] using h
    have hlen : (sales.filter (fun s => inPeriod ck p s.date)).length ≠ 0 := by
      simpa [List.length_eq_zero] using h
    simp [fetchSummary, sqlSummaryRow, hne, hlen]

/-- Witness for C7: one matching sale of amount 100 on 2026-10-10 under the
`daily` filter with start-of-day 2026-10-01. -/
theorem C7_summary_count_sum_average_witness :
    (fetchSummary [⟨1, 1, 2, 100, "2026-10-10"⟩]
        ⟨"2026-10-01", "2026-10-05", "2026-10-01"⟩ .daily).averageSale
      = (([⟨1, 1, 2, 100, "2026-10-10"⟩].filter
            (fun s => inPeriod ⟨"2026-10-01", "2026-10-05", "2026-10-01"⟩
              .daily s.date)).map SaleRow.amount).sum
          / (([(⟨1, 1, 2, 100, "2026-10-10"⟩ : SaleRow)].filter
            (fun s => inPeriod ⟨"2026-10-01", "2026-10-05", "2026-10-01"⟩
              .daily s.date)).length : ℚ) :=
  (C7_summary_count_sum_average [⟨1, 1, 2, 100, "2026-10-10"⟩]
      ⟨"2026-10-01", "2026-10-05", "2026-10-01"⟩ .daily).2.2.1 (by decide)

/-! ### Claim C2 -/

/-- C2: a successful sale of quantity `q` (positive, within stock) of the
selected item appends exactly one new Sale row whose amount is `q` times the
item's current unit price, decrements that item's inventory quantity by `q`,
and touches nothing else. -/
theorem C2_successful_sale_effect (db : DB) (iid : Nat) (q : Int)
    (now : String) (item : Item)
    (hids : (db.inventory.map Item.id).Nodup)
    (hfind : (itemsForSale db).find? (fun it => it.id == iid) = some item)
    (hq0 : 0 < q) (hqle : q ≤ item.quantity) :
    (handleSubmit db (some iid) (some q) now false false).1.sales
        = db.sales ++ [⟨nextId (db.sales.map SaleRow.id), item.id, q,
            (q : ℚ) * item.price, now⟩] ∧
    (handleSubmit db (some iid) (some q) now false false).1.sales.length
        = db.sales.length + 1 ∧
    (handleSubmit db (some iid) (some q) now false false).1.inventory.find?
        (fun it => it.id == item.id)
      = some { item with quantity := item.quantity - q } ∧
    (handleSubmit db (some iid) (some q) now false false).2
      = .saved ((q : ℚ) * item.price) ∧
    (handleSubmit db (some iid) (some q) now false false).1.users = db.users := by
  have hnle : ¬q ≤ 0 := not_le.mpr hq0
  have hnlt : ¬item.quantity < q := not_lt.mpr hqle
  have hmem : item ∈ db.inventory :=
    List.mem_of_mem_filter (List.mem_of_find?_eq_some hfind)
  have hsub : handleSubmit db (some iid) (some q) now false false
      = ({ db with
            sales := db.sales ++ [⟨nextId (db.sales.map SaleRow.id), item.id,
              q, (q : ℚ) * item.price, now⟩],
            inventory := db.inventory.map fun it =>
              if it.id == item.id then { it with quantity := it.quantity - q }
              else it },
         .saved ((q : ℚ) * item.price)) := by
    unfold handleSubmit
    simp [hfind, hnle, hnlt]
  have hcomp : ((fun it : Item => it.id == item.id) ∘ fun it : Item =>
        if it.id == item.id then { it with quantity := it.quantity - q }
        else it)
      = fun it : Item => it.id == item.id := by
    funext it
    by_cases h : (it.id == item.id) = true <;> simp [Function.comp, h]
  refine ⟨by rw [hsub], by rw [hsub]; simp, ?_, by rw [hsub], by rw [hsub]⟩
  rw [hsub]
  show (db.inventory.map _).find? _ = _
  rw [List.find?_map, hcomp, find?_key_eq_some Item.id hids hmem]
  simp

/-- Witness for C2: selling 3 of item 1 ("Soap", quantity 10, price 50)
appends the Sale row with amount `3 * 50` and leaves the item at
quantity 7. -/
theorem C2_successful_sale_effect_witness :
    (handleSubmit ⟨[⟨1, "Soap", 10, 50⟩], [], []⟩ (some 1) (some 3)
        "2026-10-11" false false).1.sales
      = [] ++ [⟨nextId (([] : List SaleRow).map SaleRow.id), 1, 3,
          ((3 : Int) : ℚ) * 50, "2026-10-11"⟩] ∧
    (handleSubmit ⟨[⟨1, "Soap", 10, 50⟩], [], []⟩ (some 1) (some 3)
        "2026-10-11" false false).1.sales.length
      = ([] : List SaleRow).length + 1 ∧
    (handleSubmit ⟨[⟨1, "Soap", 10, 50⟩], [], []⟩ (some 1) (some 3)
        "2026-10-11" false false).1.inventory.find?
        (fun it => it.id == (1 : Nat))
      = some ⟨1, "Soap", 10 - 3, 50⟩ ∧
    (handleSubmit ⟨[⟨1, "Soap", 10, 50⟩], [], []⟩ (some 1) (some 3)
        "2026-10-11" false false).2 = .saved (((3 : Int) : ℚ) * 50) ∧
    (handleSubmit ⟨[⟨1, "Soap", 10, 50⟩], [], []⟩ (some 1) (some 3)
        "2026-10-11" false false).1.users = [] :=
  C2_successful_sale_effect ⟨[⟨1, "Soap", 10, 50⟩], [], []⟩ 1 3 "2026-10-11"
    ⟨1, "Soap", 10, 50⟩ (by decide) (by decide) (by decide) (by decide)

/-! ### Claim C8 -/

/-- C8 counterexample: the claim says the low-stock threshold is
caller-supplied (configurable).  The HomeScreen query hard-codes `5` into
the SQL string: with a caller threshold of 10, an item of quantity 7 should
be returned, but the code's query never returns it. -/
theorem C8_threshold_not_configurable :
    lowStockHome [⟨1, "Gadget", 7, 10⟩] = [] ∧
    lowStockSpec [⟨1, "Gadget", 7, 10⟩] 10 = [⟨1, "Gadget", 7, 10⟩] ∧
    lowStockHome [⟨1, "Gadget", 7, 10⟩] ≠ lowStockSpec [⟨1, "Gadget", 7, 10⟩] 10 := by
  decide

/-- C8 amended: the low-stock query returns exactly the items whose on-hand
quantity is at most 5, ordered ascending by quantity, with the threshold 5
hard-coded in the query (it coincides with the spec-modelled query only at
threshold 5). -/
theorem C8_lowstock_filter_sorted (inv : List Item) :
    (lowStockHome inv).Perm
        (inv.filter (fun it => decide (it.quantity ≤ 5))) ∧
    List.Pairwise (fun a b : Item => a.quantity ≤ b.quantity)
        (lowStockHome inv) ∧
    lowStockHome inv = lowStockSpec inv 5 := by
  refine ⟨sortBy_perm _ _, ?_, rfl⟩
  have hp := @sortBy_pairwise Item
    (fun a b : Item => decide (a.quantity ≤ b.quantity))
    (fun a b => by
      simp only [decide_eq_true_eq]
      exact le_total a.quantity b.quantity)
    (fun a b c hab hbc => by
      simp only [decide_eq_true_eq] at hab hbc ⊢
      exact le_trans hab hbc)
    (inv.filter (fun it => decide (it.quantity ≤ 5)))
  exact hp.imp fun h => of_decide_eq_true h

/-! ### Claim C4 -/

/-- C4: `register` trims both inputs before validating (registering the raw
inputs behaves exactly like registering the trimmed ones), applies its six
checks in source order — each with its own distinct rejection message and no
database change — and in particular a username that is already present
(case-sensitive exact match) is rejected with "Username already exists" and
no row is inserted. -/
theorem C4_register_validation_order (db : DB) (u p role now : String) :
    register db u p role now = register db (jsTrim u) (jsTrim p) role now ∧
    ((jsTrim u = "" ∨ jsTrim p = "") → register db u p role now
        = ⟨db, false, "Username and password cannot be empty"⟩) ∧
    (jsTrim u ≠ "" → jsTrim p ≠ "" → (jsTrim u).length < 3 →
      register db u p role now
        = ⟨db, false, "Username must be at least 3 characters long"⟩) ∧
    (jsTrim u ≠ "" → jsTrim p ≠ "" → ¬(jsTrim u).length < 3 →
      (jsTrim p).length < 6 →
      register db u p role now
        = ⟨db, false, "Password must be at least 6 characters long"⟩) ∧
    (jsTrim u ≠ "" → jsTrim p ≠ "" → ¬(jsTrim u).length < 3 →
      ¬(jsTrim p).length < 6 → usernameFormatOk (jsTrim u) = false →
      register db u p role now
        = ⟨db, false,
            "Username can only contain letters, numbers, and underscores"⟩) ∧
    (jsTrim u ≠ "" → jsTrim p ≠ "" → ¬(jsTrim u).length < 3 →
      ¬(jsTrim p).length < 6 → usernameFormatOk (jsTrim u) = true →
      role ≠ "user" → role ≠ "admin" →
      register db u p role now = ⟨db, false, "Invalid role selected"⟩) ∧
    (jsTrim u ≠ "" → jsTrim p ≠ "" → ¬(jsTrim u).length < 3 →
      ¬(jsTrim p).length < 6 → usernameFormatOk (jsTrim u) = true →
      (role = "user" ∨ role = "admin") →
      (∃ w ∈ db.users, w.username = jsTrim u) →
      register db u p role now = ⟨db, false, "Username already exists"⟩) ∧
    ["Username and password cannot be empty",
     "Username must be at least 3 characters long",
     "Password must be at least 6 characters long",
     "Username can only contain letters, numbers, and underscores",
     "Invalid role selected", "Username already exists"].Nodup := by
  refine ⟨?_, ?_, ?_, ?_, ?_, ?_, ?_, by decide⟩
  · simp only [register, jsTrim_idem]
  · rintro (h | h) <;> simp [register, h]
  · intro h1 h2 h3
    simp [register, h1, h2, h3]
  · intro h1 h2 h3 h4
    simp [register, h1, h2, h3, h4]
  · intro h1 h2 h3 h4 h5
    simp [register, h1, h2, h3, h4, h5]
  · intro h1 h2 h3 h4 h5 h6 h7
    simp [register, h1, h2, h3, h4, h5, h6, h7]
  · intro h1 h2 h3 h4 h5 h6 h7
    have hdup : (db.users.find? (fun w => w.username == jsTrim u)).isSome = true := by
      rcases h7 with ⟨w, hw, he⟩
      exact List.find?_isSome.mpr ⟨w, hw, by simp [he]⟩
    rcases h6 with rfl | rfl <;> simp [register, h1, h2, h3, h4, h5, hdup]

/-- Witness for C4: registering `" bob "` behaves like registering the
trimmed `"bob"`; with `bob` already registered, the call is rejected with
"Username already exists" and the database (one user row) is unchanged. -/
theorem C4_register_validation_order_witness :
    register ⟨[], [], [⟨1, "bob", .bcryptHash "secret1", "user", "t0"⟩]⟩
        " bob " " secret99 " "user" "t1"
      = register ⟨[], [], [⟨1, "bob", .bcryptHash "secret1", "user", "t0"⟩]⟩
        "bob" "secret99" "user" "t1" ∧
    register ⟨[], [], [⟨1, "bob", .bcryptHash "secret1", "user", "t0"⟩]⟩
        " bob " " secret99 " "user" "t1"
      = ⟨⟨[], [], [⟨1, "bob", .bcryptHash "secret1", "user", "t0"⟩]⟩, false,
          "Username already exists"⟩ := by
  refine ⟨?_, ?_⟩
  · have h := (C4_register_validation_order
      ⟨[], [], [⟨1, "bob", .bcryptHash "secret1", "user", "t0"⟩]⟩
      " bob " " secret99 " "user" "t1").1
    rw [h]
    rfl
  · exact (C4_register_validation_order
      ⟨[], [], [⟨1, "bob", .bcryptHash "secret1", "user", "t0"⟩]⟩
      " bob " " secret99 " "user" "t1").2.2.2.2.2.2.1
      (by decide) (by decide) (by decide) (by decide) (by decide)
      (Or.inl rfl)
      ⟨⟨1, "bob", .bcryptHash "secret1", "user", "t0"⟩,
        by decide, by decide⟩

/-! ### Claim C9 -/

/-- C9: `register` stores the trimmed username while `login` matches the
supplied username without trimming: after a successful registration of a
username `u` that trimming changes (and a password without surrounding
whitespace), logging in with the trimmed username succeeds, while logging in
with the original untrimmed `u` fails with the generic invalid-credentials
outcome. -/
theorem C9_register_login_trim_asymmetry (db : DB) (u p role now : String)
    (hws : jsTrim u ≠ u)
    (hp : jsTrim p = p)
    (hlen : ¬(jsTrim u).length < 3)
    (hplen : ¬(jsTrim p).length < 6)
    (hfmt : usernameFormatOk (jsTrim u) = true)
    (hrole : role = "user" ∨ role = "admin")
    (hnew : db.users.find? (fun w => w.username == jsTrim u) = none)
    (hstored : ∀ w ∈ db.users, w.username.data.all isWordChar = true) :
    (register db u p role now).ok = true ∧
    login (register db u p role now).db u p
        = .failed "Invalid username or password" ∧
    login (register db u p role now).db (jsTrim u) p
      = .loggedIn (nextId (db.users.map UserRow.id)) (jsTrim u) role := by
  have h1 : jsTrim u ≠ "" := fun he => hlen (by rw [he]; decide)
  have h2 : jsTrim p ≠ "" := fun he => hplen (by rw [he]; decide)
  have hnotSome : (db.users.find? (fun w => w.username == jsTrim u)).isSome = false := by
    rw [hnew]; rfl
  have hreg : register db u p role now
      = ⟨{ db with users := db.users ++
            [⟨nextId (db.users.map UserRow.id), jsTrim u,
              .bcryptHash (jsTrim p), role, now⟩] },
         true, "User registered successfully"⟩ := by
    rcases hrole with rfl | rfl <;>
      simp [register, h1, h2, hlen, hplen, hfmt, hnotSome]
  have hallword : u.data.all isWordChar = false := all_wordChar_of_trim_ne hws
  refine ⟨by rw [hreg], ?_, ?_⟩
  · have hfail : ({ db with users := db.users ++
          [⟨nextId (db.users.map UserRow.id), jsTrim u,
            .bcryptHash (jsTrim p), role, now⟩] } : DB).users.find?
          (fun w => w.username == u) = none := by
      refine List.find?_eq_none.mpr fun w hw => ?_
      rcases List.mem_append.mp hw with hw | hw
      · simp only [beq_iff_eq]
        intro he
        rw [← he] at hallword
        rw [hstored w hw] at hallword
        cases hallword
      · rcases List.mem_singleton.mp hw with rfl
        simp only [beq_iff_eq]
        exact hws
    rw [hreg]
    unfold login
    rw [hfail]
  · rw [hreg]
    unfold login
    rw [find?_append_left_none hnew, List.find?_cons_of_pos _ (by simp)]
    simp [bcryptCompare, hp]

/-- Witness for C9: on an empty database, registering `" bob "` with
password `secret1` succeeds; `login "bob" "secret1"` then succeeds while
`login " bob " "secret1"` fails. -/
theorem C9_register_login_trim_asymmetry_witness :
    (register ⟨[], [], []⟩ " bob " "secret1" "user" "t1").ok = true ∧
    login (register ⟨[], [], []⟩ " bob " "secret1" "user" "t1").db
        " bob " "secret1" = .failed "Invalid username or password" ∧
    login (register ⟨[], [], []⟩ " bob " "secret1" "user" "t1").db
        (jsTrim " bob ") "secret1"
      = .loggedIn (nextId (([] : List UserRow).map UserRow.id))
          (jsTrim " bob ") "user" :=
  C9_register_login_trim_asymmetry ⟨[], [], []⟩ " bob " "secret1" "user" "t1"
    (by decide) (by decide) (by decide) (by decide) (by decide)
    (Or.inl rfl) (by decide) (by decide)

/-! ### Claim C10 -/

theorem join_sum_matched (inv : List Item) (hnd : (inv.map Item.id).Nodup) :
    ∀ R : List SaleRow,
      ((R.flatMap fun s =>
          (inv.filter (fun i => i.id == s.itemId)).map fun i => (s, i)).map
            (fun si => si.1.amount)).sum
        = ((R.filter fun s =>
            (inv.find? (fun i => i.id == s.itemId)).isSome).map
              SaleRow.amount).sum
  | [] => rfl
  | s :: t => by
    rw [List.flatMap_cons, List.map_append, List.sum_append,
      join_sum_matched inv hnd t, List.filter_cons,
      filter_key_of_nodup Item.id s.itemId hnd]
    cases hf : inv.find? (fun i => i.id == s.itemId) with
    | none => simp [hf]
    | some x => simp [hf]

theorem report_total_eq (sales : List SaleRow) (inv : List Item) (ck : Clock)
    (pd : Period) (hnd : (inv.map Item.id).Nodup) :
    ((fetchReportRows sales inv ck pd).map ReportRow.totalAmount).sum
      = (((sales.filter (fun s => inPeriod ck pd s.date)).filter
          (fun s => (inv.find? (fun i => i.id == s.itemId)).isSome)).map
            SaleRow.amount).sum := by
  unfold fetchReportRows
  rw [((sortBy_perm _ _).map ReportRow.totalAmount).sum_eq, List.map_map]
  have hmapeq :
      ((joinedRows sales inv ck pd).map
          (fun si => (si.1.itemId, si.2.name))).dedup.map
        (ReportRow.totalAmount ∘ fun k =>
          ReportRow.mk k.1 k.2
            ((((joinedRows sales inv ck pd).filter
                (fun si => (si.1.itemId, si.2.name) == k)).map
              (fun si => si.1.quantity)).sum)
            ((((joinedRows sales inv ck pd).filter
                (fun si => (si.1.itemId, si.2.name) == k)).map
              (fun si => si.1.amount)).sum))
      = ((joinedRows sales inv ck pd).map
          (fun si => (si.1.itemId, si.2.name))).dedup.map
        (fun k => (((joinedRows sales inv ck pd).filter
            (fun si => (si.1.itemId, si.2.name) == k)).map
          (fun si => si.1.amount)).sum) :=
    List.map_congr_left fun k _ => rfl
  rw [hmapeq]
  exact (sum_over_groups (fun a b : Nat × String => a == b)
      (fun a b => beq_iff_eq)
      (fun si : SaleRow × Item => (si.1.itemId, si.2.name))
      (fun si => si.1.amount) (joinedRows sales inv ck pd)).trans
    (join_sum_matched inv hnd _)

/-- C10: after deleting an inventory item that has an in-range sale, the
sales summary still counts and sums that sale (it reads the `sales` table
alone), while the detailed report drops it (it inner-joins `sales` with
`inventory`): the summary's total revenue decomposes as the report's
per-item totals plus the amounts of in-range sales whose item no longer
exists, and it strictly exceeds the report total. -/
theorem C10_deleted_item_summary_exceeds_report (db : DB) (ck : Clock)
    (pd : Period) (it : Item) (sl : SaleRow)
    (hids : (db.inventory.map Item.id).Nodup)
    (hsl : sl ∈ db.sales)
    (href : sl.itemId = it.id)
    (hin : inPeriod ck pd sl.date = true)
    (hpos : 0 < sl.amount)
    (hnn : ∀ s ∈ db.sales, 0 ≤ s.amount) :
    (fetchSummary (deleteItem db it.id).sales ck pd).totalRevenue
        = ((fetchReportRows (deleteItem db it.id).sales
              (deleteItem db it.id).inventory ck pd).map
            ReportRow.totalAmount).sum
          + ((((deleteItem db it.id).sales.filter
                (fun s => inPeriod ck pd s.date)).filter
              (fun s => ((deleteItem db it.id).inventory.find?
                (fun i => i.id == s.itemId)).isNone)).map SaleRow.amount).sum ∧
    ((fetchReportRows (deleteItem db it.id).sales
          (deleteItem db it.id).inventory ck pd).map ReportRow.totalAmount).sum
      < (fetchSummary (deleteItem db it.id).sales ck pd).totalRevenue := by
  have hsales : (deleteItem db it.id).sales = db.sales := rfl
  have hinv : (deleteItem db it.id).inventory
      = db.inventory.filter (fun i => !(i.id == it.id)) := rfl
  have hnd' : (((deleteItem db it.id).inventory).map Item.id).Nodup := by
    rw [hinv]
    exact List.Nodup.sublist ((List.filter_sublist _).map Item.id) hids
  have hslR : sl ∈ db.sales.filter (fun s => inPeriod ck pd s.date) :=
    List.mem_filter.mpr ⟨hsl, hin⟩
  have hRne : db.sales.filter (fun s => inPeriod ck pd s.date) ≠ [] :=
    fun he => (List.not_mem_nil sl) (he ▸ hslR)
  have hrev : (fetchSummary db.sales ck pd).totalRevenue
      = ((db.sales.filter (fun s => inPeriod ck pd s.date)).map
          SaleRow.amount).sum := by
    have hne : (db.sales.filter (fun s => inPeriod ck pd s.date)).isEmpty
        = false := by
      simpa [List.isEmpty_iff] using hRne
    simp [fetchSummary, sqlSummaryRow, hne]
  have hnotnone : ∀ o : Option Item, (!o.isSome) = o.isNone := fun o => by
    cases o <;> rfl
  have hsplit := sum_map_filter_split
    (fun s : SaleRow =>
      ((deleteItem db it.id).inventory.find? (fun i => i.id == s.itemId)).isSome)
    SaleRow.amount (db.sales.filter (fun s => inPeriod ck pd s.date))
  simp only [hnotnone] at hsplit
  have heq : (fetchSummary (deleteItem db it.id).sales ck pd).totalRevenue
      = ((fetchReportRows (deleteItem db it.id).sales
            (deleteItem db it.id).inventory ck pd).map
          ReportRow.totalAmount).sum
        + ((((deleteItem db it.id).sales.filter
              (fun s => inPeriod ck pd s.date)).filter
            (fun s => ((deleteItem db it.id).inventory.find?
              (fun i => i.id == s.itemId)).isNone)).map SaleRow.amount).sum := by
    rw [hsales, hrev,
      report_total_eq db.sales ((deleteItem db it.id).inventory) ck pd hnd']
    exact hsplit.symm
  have hnone : (deleteItem db it.id).inventory.find?
      (fun i => i.id == sl.itemId) = none := by
    refine List.find?_eq_none.mpr fun x hx => ?_
    rw [hinv] at hx
    rcases List.mem_filter.mp hx with ⟨_, hxid⟩
    simp only [beq_iff_eq, href]
    intro he
    rw [he] at hxid
    simp at hxid
  have horphan : sl ∈ ((deleteItem db it.id).sales.filter
        (fun s => inPeriod ck pd s.date)).filter
      (fun s => ((deleteItem db it.id).inventory.find?
        (fun i => i.id == s.itemId)).isNone) := by
    rw [hsales]
    exact List.mem_filter.mpr ⟨hslR, by rw [hnone]; rfl⟩
  have hpos' : 0 < ((((deleteItem db it.id).sales.filter
        (fun s => inPeriod ck pd s.date)).filter
      (fun s => ((deleteItem db it.id).inventory.find?
        (fun i => i.id == s.itemId)).isNone)).map SaleRow.amount).sum := by
    have hmem := List.mem_map_of_mem SaleRow.amount horphan
    have hall : ∀ y ∈ (((deleteItem db it.id).sales.filter
          (fun s => inPeriod ck pd s.date)).filter
        (fun s => ((deleteItem db it.id).inventory.find?
          (fun i => i.id == s.itemId)).isNone)).map SaleRow.amount,
        (0 : ℚ) ≤ y := by
      intro y hy
      rcases List.mem_map.mp hy with ⟨s, hs, rfl⟩
      exact hnn s (List.mem_of_mem_filter (List.mem_of_mem_filter hs))
    exact lt_of_lt_of_le hpos (List.single_le_sum hall _ hmem)
  exact ⟨heq, heq ▸ lt_add_of_pos_right _ hpos'⟩

/-- Witness for C10: two items with one in-range sale each; deleting item 1
(with its sale of amount 50 on 2026-10-10) makes the summary revenue exceed
the report total by that orphaned amount. -/
theorem C10_deleted_item_summary_exceeds_report_witness :
    (fetchSummary (deleteItem ⟨[⟨1, "Soap", 10, 50⟩, ⟨2, "Tea", 5, 20⟩],
          [⟨1, 1, 1, 50, "2026-10-10"⟩, ⟨2, 2, 1, 20, "2026-10-09"⟩], []⟩
          1).sales ⟨"2026-10-01", "2026-10-05", "2026-10-01"⟩ .daily).totalRevenue
        = ((fetchReportRows (deleteItem ⟨[⟨1, "Soap", 10, 50⟩, ⟨2, "Tea", 5, 20⟩],
              [⟨1, 1, 1, 50, "2026-10-10"⟩, ⟨2, 2, 1, 20, "2026-10-09"⟩], []⟩
              1).sales
            (deleteItem ⟨[⟨1, "Soap", 10, 50⟩, ⟨2, "Tea", 5, 20⟩],
              [⟨1, 1, 1, 50, "2026-10-10"⟩, ⟨2, 2, 1, 20, "2026-10-09"⟩], []⟩
              1).inventory
            ⟨"2026-10-01", "2026-10-05", "2026-10-01"⟩ .daily).map
            ReportRow.totalAmount).sum
          + ((((deleteItem ⟨[⟨1, "Soap", 10, 50⟩, ⟨2, "Tea", 5, 20⟩],
                [⟨1, 1, 1, 50, "2026-10-10"⟩, ⟨2, 2, 1, 20, "2026-10-09"⟩], []⟩
                1).sales.filter
                (fun s => inPeriod ⟨"2026-10-01", "2026-10-05", "2026-10-01"⟩
                  .daily s.date)).filter
              (fun s => ((deleteItem ⟨[⟨1, "Soap", 10, 50⟩, ⟨2, "Tea", 5, 20⟩],
                [⟨1, 1, 1, 50, "2026-10-10"⟩, ⟨2, 2, 1, 20, "2026-10-09"⟩], []⟩
                1).inventory.find?
                (fun i => i.id == s.itemId)).isNone)).map SaleRow.amount).sum ∧
    ((fetchReportRows (deleteItem ⟨[⟨1, "Soap", 10, 50⟩, ⟨2, "Tea", 5, 20⟩],
          [⟨1, 1, 1, 50, "2026-10-10"⟩, ⟨2, 2, 1, 20, "2026-10-09"⟩], []⟩
          1).sales
        (deleteItem ⟨[⟨1, "Soap", 10, 50⟩, ⟨2, "Tea", 5, 20⟩],
          [⟨1, 1, 1, 50, "2026-10-10"⟩, ⟨2, 2, 1, 20, "2026-10-09"⟩], []⟩
          1).inventory
        ⟨"2026-10-01", "2026-10-05", "2026-10-01"⟩ .daily).map
        ReportRow.totalAmount).sum
      < (fetchSummary (deleteItem ⟨[⟨1, "Soap", 10, 50⟩, ⟨2, "Tea", 5, 20⟩],
          [⟨1, 1, 1, 50, "2026-10-10"⟩, ⟨2, 2, 1, 20, "2026-10-09"⟩], []⟩
          1).sales ⟨"2026-10-01", "2026-10-05", "2026-10-01"⟩ .daily).totalRevenue :=
  C10_deleted_item_summary_exceeds_report
    ⟨[⟨1, "Soap", 10, 50⟩, ⟨2, "Tea", 5, 20⟩],
      [⟨1, 1, 1, 50, "2026-10-10"⟩, ⟨2, 2, 1, 20, "2026-10-09"⟩], []⟩
    ⟨"2026-10-01", "2026-10-05", "2026-10-01"⟩ .daily
    ⟨1, "Soap", 10, 50⟩ ⟨1, 1, 1, 50, "2026-10-10"⟩
    (by decide) (by decide) (by decide) (by decide) (by decide) (by decide)

end BizPro
